import Mathlib

/-!
Shallow embedding of the streak, reminder, notification and statistics
logic of the daily-prayer-tracker repository.

Conventions used throughout:
* JS `Set` objects are modelled as duplicate-free lists built by
  insertion-order inserts (`jsSetOfList`); only membership and size are
  ever used by the code.
* Wall-clock values are passed as parameters: calendar dates as the
  `yyyy-MM-dd` strings the code produces with `format`, timestamps as
  natural-number epoch milliseconds (ISO-8601 string comparison on
  timestamps of the same timezone agrees with numeric order).
* `Math.round` is `jsRound`: `⌊x + 1/2⌋` on rationals, which is exactly
  the JS semantics (half-up, also for negatives).
-/

namespace PrayerTracker

/-- JS `Math.round`: round half towards positive infinity. -/
def jsRound (q : ℚ) : ℤ := ⌊q + 1/2⌋

/-- Insert into a JS `Set` modelled as an insertion-ordered duplicate-free
list: appends the element when it is not yet present. -/
def jsSetInsert (s : List String) (x : String) : List String :=
  if x ∈ s then s else s ++ [x]

/-- `new Set(list)`: fold the list into an insertion-ordered set. -/
def jsSetOfList (l : List String) : List String :=
  l.foldl jsSetInsert []

/-- `Prayer` record from `src/types/prayer.ts` (the fields the
computations read; identifier and audit-timestamp metadata carry no
logic). `logged_at` is epoch milliseconds, `duration_minutes` is absent
(`undefined`) or a number. -/
structure Prayer where
  prayer_name : String
  logged_at : ℕ
  duration_minutes : Option ℕ
deriving DecidableEq, Repr

/-- `PrayerStreak` record from `src/types/prayer.ts`.
`last_prayer_date` is stored by the code as an ISO instant and read back
through `format(parseISO _, 'yyyy-MM-dd')`; the model keeps that local
calendar-date projection directly. -/
structure PrayerStreak where
  current_streak : ℕ
  longest_streak : ℕ
  last_prayer_date : Option String
  total_prayers : ℕ
deriving DecidableEq, Repr

/-- The streak record `PrayerService.getOrCreateStreak` creates lazily on
first read: zero streaks, no last-prayer date, zero total. -/
def initialStreak : PrayerStreak :=
  { current_streak := 0
    longest_streak := 0
    last_prayer_date := none
    total_prayers := 0 }

/-- Core of `PrayerService.updateStreak` (prayer.ts lines 271-329) with
the I/O reads made explicit parameters: `todaysPrayers` is what
`getTodaysPrayers` returned, `totalPrayers` what `getTotalPrayerCount`
returned, `today` and `yesterday` are `format(now, 'yyyy-MM-dd')` and
`format(now - 24h, 'yyyy-MM-dd')`. -/
def updateStreak (streak : PrayerStreak) (todaysPrayers : List Prayer)
    (totalPrayers : ℕ) (today yesterday : String) : PrayerStreak :=
  let uniquePrayersToday := jsSetOfList (todaysPrayers.map (·.prayer_name))
  let completedToday := uniquePrayersToday.length = 5
  if completedToday then
    let newCurrentStreak :=
      match streak.last_prayer_date with
      | some lastDate =>
          if lastDate = yesterday then
            streak.current_streak + 1
          else if lastDate ≠ today then
            1
          else
            streak.current_streak
      | none => 1
    let newLongestStreak := max streak.longest_streak newCurrentStreak
    { streak with
        current_streak := newCurrentStreak
        longest_streak := newLongestStreak
        last_prayer_date := some today
        total_prayers := totalPrayers }
  else
    streak

/-- A concrete day of five distinct prayers, used by witnesses. -/
def fiveDistinctToday : List Prayer :=
  [ { prayer_name := "Fajr", logged_at := 100, duration_minutes := none }
  , { prayer_name := "Dhuhr", logged_at := 200, duration_minutes := none }
  , { prayer_name := "Asr", logged_at := 300, duration_minutes := none }
  , { prayer_name := "Maghrib", logged_at := 400, duration_minutes := none }
  , { prayer_name := "Isha", logged_at := 500, duration_minutes := none } ]

/-! ## The hook-side streak implementation (`usePrayerData`) -/

/-- `PrayerLog` record from the `usePrayerData` hook (camel-cased shape).
`loggedAtDate` is the `toDateString()` projection of `loggedAt`, the
only form in which the hook's streak logic reads the timestamp. -/
structure PrayerLog where
  prayerName : String
  loggedAtDate : String
  durationMinutes : Option ℕ
deriving DecidableEq, Repr

/-- Hook-side `PrayerStreak` state from `usePrayerData`
(`{currentStreak, longestStreak, lastPrayerDate}`). -/
structure HookStreak where
  currentStreak : ℕ
  longestStreak : ℕ
  lastPrayerDate : String
deriving DecidableEq, Repr

/-- The hook's initial streak state (`useState` default):
zero streaks, empty last-prayer date. -/
def initialHookStreak : HookStreak :=
  { currentStreak := 0, longestStreak := 0, lastPrayerDate := "" }

/-- `updateStreak` from the `usePrayerData` hook: filters the (stale)
`prayerLogs` state down to today, adds the prayer just logged to the
set of today's prayer names, and if the set has all five, increments
`currentStreak` unconditionally — it never compares `lastPrayerDate`
with today or yesterday. `today` is `new Date().toDateString()`. -/
def hookUpdateStreak (streak : HookStreak) (prayerLogs : List PrayerLog)
    (prayerName : String) (today : String) : HookStreak :=
  let todayLogs := prayerLogs.filter (fun log => log.loggedAtDate = today)
  let todayPrayers := jsSetInsert (jsSetOfList (todayLogs.map (·.prayerName))) prayerName
  if todayPrayers.length = 5 then
    { currentStreak := streak.currentStreak + 1
      longestStreak := max streak.longestStreak (streak.currentStreak + 1)
      lastPrayerDate := today }
  else
    streak

/-- Five hook-side logs covering all five prayer names on one day. -/
def fiveHookLogs (day : String) : List PrayerLog :=
  [ { prayerName := "Fajr", loggedAtDate := day, durationMinutes := none }
  , { prayerName := "Dhuhr", loggedAtDate := day, durationMinutes := none }
  , { prayerName := "Asr", loggedAtDate := day, durationMinutes := none }
  , { prayerName := "Maghrib", loggedAtDate := day, durationMinutes := none }
  , { prayerName := "Isha", loggedAtDate := day, durationMinutes := none } ]

/-! ## Streak-record invariant (C6) -/

/-- Service-side reachable streak states: the lazily created initial
record, closed under `updateStreak` runs with arbitrary day inputs. -/
inductive ReachableStreak : PrayerStreak → Prop
  | init : ReachableStreak initialStreak
  | step (s : PrayerStreak) (todaysPrayers : List Prayer) (totalPrayers : ℕ)
      (today yesterday : String) :
      ReachableStreak s →
      ReachableStreak (updateStreak s todaysPrayers totalPrayers today yesterday)

/-- Hook-side reachable streak states: the `useState` default, closed
under `hookUpdateStreak` runs with arbitrary inputs. -/
inductive ReachableHookStreak : HookStreak → Prop
  | init : ReachableHookStreak initialHookStreak
  | step (s : HookStreak) (prayerLogs : List PrayerLog) (prayerName today : String) :
      ReachableHookStreak s →
      ReachableHookStreak (hookUpdateStreak s prayerLogs prayerName today)

/-! ## Reminder due-check (C4) -/

/-- `PrayerReminder` record from `src/types/prayer.ts`: `is_enabled` is a
SQLite boolean stored as the string `"0"` or `"1"`, `days_of_week` a
comma-separated list of day numbers (1 = Monday … 7 = Sunday). -/
structure PrayerReminder where
  prayer_name : String
  reminder_time : String
  is_enabled : String
  days_of_week : String
deriving DecidableEq, Repr

/-- JS `Number(_)` restricted to the SQLite-boolean strings this
repository stores in `is_enabled` (`createReminder` writes `"1"`, the
only other value written is `"0"`). -/
def sqliteBoolNum (s : String) : ℕ :=
  if s = "0" then 0 else 1

/-- `days_of_week.split(',').map(d => parseInt(d))` followed by the
`includes(currentDay)` test: non-numeric fragments parse to `NaN` in JS
and can never equal a day number, so dropping them with `filterMap`
preserves the membership test exactly. -/
def daysOfWeekList (r : PrayerReminder) : List ℕ :=
  (r.days_of_week.splitOn ",").filterMap String.toNat?

/-- `PrayerService.checkForDueReminders` (prayer.ts lines 501-514) with
the wall clock made explicit: `currentTime` is `format(now, 'HH:mm')`
and `currentDay` is `now.getDay() || 7` (Monday = 1 … Sunday = 7). -/
def checkForDueReminders (reminders : List PrayerReminder)
    (currentTime : String) (currentDay : ℕ) : List PrayerReminder :=
  reminders.filter fun reminder =>
    if sqliteBoolNum reminder.is_enabled = 0 then false
    else if currentDay ∉ daysOfWeekList reminder then false
    else decide (reminder.reminder_time = currentTime)

/-! ## Notification dedup (C5)

`useNotifications.checkReminders` walks the reminder list; for each
enabled reminder whose time equals the current minute it dispatches a
notification and records the key `prayerName + "_" + currentTime` in the
`notifiedToday` set, consulted before dispatch.  The model threads the
set explicitly and also returns the list of dispatched keys. -/

/-- Hook-side `PrayerReminder` from `usePrayerData` (boolean
`isEnabled`, no `daysOfWeek` field). -/
structure HookReminder where
  prayerName : String
  reminderTime : String
  isEnabled : Bool
deriving DecidableEq, Repr

/-- The dedup key `reminder.prayerName + "_" + currentTime`. -/
def reminderKey (r : HookReminder) (currentTime : String) : String :=
  r.prayerName ++ "_" ++ currentTime

/-- One iteration of the `reminders.forEach` body in `checkReminders`:
the accumulator is `(notifiedToday, dispatched keys so far)`. -/
def checkStep (currentTime : String) (acc : List String × List String)
    (reminder : HookReminder) : List String × List String :=
  if !reminder.isEnabled then acc
  else if reminder.reminderTime = currentTime ∧ reminderKey reminder currentTime ∉ acc.1 then
    (acc.1 ++ [reminderKey reminder currentTime], acc.2 ++ [reminderKey reminder currentTime])
  else acc

/-- `checkReminders` (part_003 lines 55-68): run the forEach over the
whole reminder list, starting from the current `notifiedToday` set;
returns the updated set and the keys dispatched during this check. -/
def checkReminders (reminders : List HookReminder) (currentTime : String)
    (notified : List String) : List String × List String :=
  reminders.foldl (checkStep currentTime) (notified, [])

/-- A sequence of due-checks (one per polling tick, each with its
reminder list and current `HH:MM` time), threading the `notifiedToday`
set and accumulating every dispatched key.  The set starts from the
state it had at the first tick; it is cleared (`[]`) at local
midnight, so a calendar day is a run starting from `[]`. -/
def runStep (acc : List String × List String)
    (call : List HookReminder × String) : List String × List String :=
  ((checkReminders call.1 call.2 acc.1).1,
    acc.2 ++ (checkReminders call.1 call.2 acc.1).2)

def runChecks (calls : List (List HookReminder × String))
    (notified : List String) : List String × List String :=
  calls.foldl runStep (notified, [])

/-- Dispatch invariant, relative to the set `s` at the start of the
run: dispatched keys are duplicate-free, were absent from `s`, are
recorded in the current set; the set only grows, and never beyond
`s` plus the dispatched keys. -/
def DispatchInv (s : List String) (acc : List String × List String) : Prop :=
  acc.2.Nodup ∧ (∀ k ∈ acc.2, k ∉ s ∧ k ∈ acc.1) ∧
    (∀ k ∈ s, k ∈ acc.1) ∧ (∀ k ∈ acc.1, k ∈ s ∨ k ∈ acc.2)

/-! ## Statistics aggregation (`PrayerService.getPrayerStats`, C7, C9, C10) -/

/-- One element of `eachDayOfInterval(startOfWeek, endOfWeek)` as the
stats code consumes it: the `format(day, 'EEE')` label and the
`startOfDay`/`endOfDay` bounds as epoch milliseconds. -/
structure WeekDay where
  label : String
  dayStart : ℕ
  dayEnd : ℕ
deriving DecidableEq, Repr

/-- One entry of `PrayerStats.weeklyStats`. -/
structure WeeklyStat where
  date : String
  completed : ℕ
  total : ℕ
deriving DecidableEq, Repr

/-- `PrayerStats` from `src/types/prayer.ts`; the two rounded fields are
integers (`Math.round` results). -/
structure PrayerStats where
  totalPrayers : ℕ
  currentStreak : ℕ
  longestStreak : ℕ
  averageDuration : ℤ
  completionRate : ℤ
  weeklyStats : List WeeklyStat
deriving DecidableEq, Repr

/-- `prayers.filter(p => p.duration_minutes)`: JS truthiness keeps a log
exactly when `duration_minutes` is present and nonzero. -/
def prayersWithDuration (prayers : List Prayer) : List Prayer :=
  prayers.filter fun p =>
    match p.duration_minutes with
    | some d => decide (d ≠ 0)
    | none => false

/-- The `averageDuration` accumulator before rounding:
`reduce((sum, p) => sum + (p.duration_minutes || 0), 0) / length` when
the filtered list is nonempty, otherwise `0`. -/
def rawAverageDuration (prayers : List Prayer) : ℚ :=
  let pw := prayersWithDuration prayers
  if pw.length > 0 then
    (pw.foldl (fun sum p => sum + ((p.duration_minutes.getD 0 : ℕ) : ℚ)) 0) / pw.length
  else 0

/-- `Math.round(averageDuration)` as returned in the stats object. -/
def averageDurationOf (prayers : List Prayer) : ℤ :=
  jsRound (rawAverageDuration prayers)

/-- The `weeklyStats` computation (prayer.ts lines 367-380): for each
day of the current week, the number of distinct prayer names among the
30-day logs that fall inside that day, out of a fixed total of 5. -/
def weeklyStatsOf (prayers : List Prayer) (daysInWeek : List WeekDay) : List WeeklyStat :=
  daysInWeek.map fun day =>
    let dayPrayers := prayers.filter fun p =>
      decide (day.dayStart ≤ p.logged_at ∧ p.logged_at ≤ day.dayEnd)
    { date := day.label
      completed := (jsSetOfList (dayPrayers.map (·.prayer_name))).length
      total := 5 }

/-- `completionRate` (prayer.ts lines 383-384 and the `Math.round` at
line 391): days of the current week whose `completed` is 5, divided by
7, times 100, rounded. -/
def completionRateOf (prayers : List Prayer) (daysInWeek : List WeekDay) : ℤ :=
  let completeDays := ((weeklyStatsOf prayers daysInWeek).filter
    fun day => decide (day.completed = 5)).length
  jsRound ((completeDays : ℚ) / 7 * 100)

/-- The stats object the `try` branch of `getPrayerStats` returns, with
the `Promise.all` reads made parameters. -/
def buildPrayerStats (prayers : List Prayer) (streak : PrayerStreak)
    (daysInWeek : List WeekDay) : PrayerStats :=
  { totalPrayers := prayers.length
    currentStreak := streak.current_streak
    longestStreak := streak.longest_streak
    averageDuration := averageDurationOf prayers
    completionRate := completionRateOf prayers daysInWeek
    weeklyStats := weeklyStatsOf prayers daysInWeek }

/-- The `catch` branch's default weekly structure: same week days,
`completed: 0, total: 5`. -/
def defaultWeeklyStats (daysInWeek : List WeekDay) : List WeeklyStat :=
  daysInWeek.map fun day => { date := day.label, completed := 0, total := 5 }

/-- The zero-valued default stats object of the `catch` branch
(prayer.ts lines 407-414). -/
def defaultPrayerStats (daysInWeek : List WeekDay) : PrayerStats :=
  { totalPrayers := 0
    currentStreak := 0
    longestStreak := 0
    averageDuration := 0
    completionRate := 0
    weeklyStats := defaultWeeklyStats daysInWeek }

/-- `getPrayerStats` with the fallible prefix (the db reads and any
throw inside the `try` body) reified as an `Except`: on success the
stats are built from the loaded data, on any error the default object
is returned and the error does not propagate. -/
def getPrayerStats (loaded : Except String (List Prayer × PrayerStreak))
    (daysInWeek : List WeekDay) : PrayerStats :=
  match loaded with
  | Except.ok data => buildPrayerStats data.1 data.2 daysInWeek
  | Except.error _ => defaultPrayerStats daysInWeek

/-- A concrete current week, for witnesses and counterexamples: seven
labelled days with disjoint `[start, end]` millisecond ranges. -/
def sampleWeek : List WeekDay :=
  [ { label := "Sun", dayStart := 0, dayEnd := 999 }
  , { label := "Mon", dayStart := 1000, dayEnd := 1999 }
  , { label := "Tue", dayStart := 2000, dayEnd := 2999 }
  , { label := "Wed", dayStart := 3000, dayEnd := 3999 }
  , { label := "Thu", dayStart := 4000, dayEnd := 4999 }
  , { label := "Fri", dayStart := 5000, dayEnd := 5999 }
  , { label := "Sat", dayStart := 6000, dayEnd := 6999 } ]

/-- Spec-side numerator of the completion rate, written from the
claim's words: the number of days in the current week on which all 5
distinct prayers were logged. -/
def daysWithAllFive (prayers : List Prayer) (daysInWeek : List WeekDay) : ℕ :=
  (daysInWeek.filter fun day =>
    decide ((jsSetOfList ((prayers.filter fun p =>
      decide (day.dayStart ≤ p.logged_at ∧ p.logged_at ≤ day.dayEnd)).map
        (·.prayer_name))).length = 5)).length

/-- Spec-side average duration, written from the claim's words: the
mean of `duration_minutes` over the logs whose field is present and
nonzero, rounded to the nearest integer, and 0 when no such log
exists. -/
def averageDurationSpec (prayers : List Prayer) : ℤ :=
  let qual := prayers.filter fun p =>
    decide (p.duration_minutes ≠ none ∧ p.duration_minutes ≠ some 0)
  if qual.length = 0 then 0
  else jsRound ((qual.map fun p => ((p.duration_minutes.getD 0 : ℕ) : ℚ)).sum / qual.length)

/-! ## Most-prayed prayer name (`getMostPrayedTime`, C8) -/

/-- One step of the `logs.reduce` that builds the `prayerCounts` JS
object: an existing key is incremented in place, a new key is appended
(JS objects keep string keys in insertion order). -/
def bumpCount : List (String × ℕ) → String → List (String × ℕ)
  | [], name => [(name, 1)]
  | (k, v) :: rest, name =>
      if k = name then (k, v + 1) :: rest else (k, v) :: bumpCount rest name

/-- The `prayerCounts` object of `getMostPrayedTime` as its
`Object.entries` view: first-encounter ordered `(name, count)` pairs. -/
def prayerCounts (logs : List PrayerLog) : List (String × ℕ) :=
  logs.foldl (fun acc log => bumpCount acc log.prayerName) []

/-- The entry-selection step of the `Object.entries(...).reduce`:
`prayerCounts[a[0]] > prayerCounts[b[0]] ? a : b`, which on the
entries view is a comparison of the stored counts (keys are unique and
carry their final counts). -/
def pickEntry (a b : String × ℕ) : String × ℕ :=
  if a.2 > b.2 then a else b

/-- `getMostPrayedTime` (part_003 lines 343-352): reduce the entries
with `pickEntry`; for an empty log list the `?.[0] || 'None'` fallback
yields `"None"` (the JS `reduce` of an empty array would throw before
reaching it, a case `getMonthlyStats` never hits in the UI). -/
def getMostPrayedTime (logs : List PrayerLog) : String :=
  match prayerCounts logs with
  | [] => "None"
  | e :: es => (es.foldl pickEntry e).1

/-- The highest count among the entries (spec-side). -/
def maxCount : List (String × ℕ) → ℕ
  | [] => 0
  | e :: es => max e.2 (maxCount es)

/-- Spec-side reading of the original claim: the first-encountered
entry with the highest count. -/
def firstEncounteredMax (entries : List (String × ℕ)) : Option String :=
  (entries.find? fun x => decide (x.2 = maxCount entries)).map Prod.fst

/-- Spec-side reading of the amended claim: the last-encountered entry
with the highest count. -/
def lastEncounteredMax (entries : List (String × ℕ)) : Option String :=
  ((entries.filter fun x => decide (x.2 = maxCount entries)).getLast?).map Prod.fst

/-- Number of logs carrying a given prayer name. -/
def occurrences (logs : List PrayerLog) (name : String) : ℕ :=
  (logs.filter fun log => decide (log.prayerName = name)).length

/-- `prayerCounts[name] || 0` (keys are unique in the entries view). -/
def lookupCount : List (String × ℕ) → String → ℕ
  | [], _ => 0
  | e :: rest, name => if e.1 = name then e.2 else lookupCount rest name

/-- Two logs with tied counts, `Fajr` encountered first. -/
def twoTiedLogs : List PrayerLog :=
  [ { prayerName := "Fajr", loggedAtDate := "Sat Oct 10 2026", durationMinutes := none }
  , { prayerName := "Dhuhr", loggedAtDate := "Sat Oct 10 2026", durationMinutes := none } ]

/-- `Fajr` twice, `Dhuhr` once. -/
def tripleLogs : List PrayerLog :=
  [ { prayerName := "Fajr", loggedAtDate := "Sat Oct 10 2026", durationMinutes := none }
  , { prayerName := "Dhuhr", loggedAtDate := "Sat Oct 10 2026", durationMinutes := none }
  , { prayerName := "Fajr", loggedAtDate := "Sat Oct 10 2026", durationMinutes := none } ]

/-! ## Theorems -/

/-- Claim C1: streak continuity.  When the stored `last_prayer_date`
equals yesterday's calendar date and today's logs contain all five
distinct prayer names, `updateStreak` increments `current_streak` by
exactly one and sets `longest_streak` to the maximum of the old
`longest_streak` and the new `current_streak`. -/
theorem streak_continuity
    (streak : PrayerStreak) (todaysPrayers : List Prayer)
    (totalPrayers : ℕ) (today yesterday : String)
    (hlast : streak.last_prayer_date = some yesterday)
    (hfive : (jsSetOfList (todaysPrayers.map (·.prayer_name))).length = 5) :
    (updateStreak streak todaysPrayers totalPrayers today yesterday).current_streak
        = streak.current_streak + 1 ∧
    (updateStreak streak todaysPrayers totalPrayers today yesterday).longest_streak
        = max streak.longest_streak (streak.current_streak + 1) := by
  unfold updateStreak
  simp [hlast, hfive]

/-- Witness for C1 at a concrete input: streak of 3 days, last prayer
date yesterday, five distinct prayers today. -/
theorem streak_continuity_witness :
    (updateStreak
        { current_streak := 3, longest_streak := 5,
          last_prayer_date := some "2026-10-10", total_prayers := 40 }
        fiveDistinctToday 45 "2026-10-11" "2026-10-10").current_streak = 3 + 1 ∧
    (updateStreak
        { current_streak := 3, longest_streak := 5,
          last_prayer_date := some "2026-10-10", total_prayers := 40 }
        fiveDistinctToday 45 "2026-10-11" "2026-10-10").longest_streak = max 5 (3 + 1) :=
  streak_continuity
    { current_streak := 3, longest_streak := 5,
      last_prayer_date := some "2026-10-10", total_prayers := 40 }
    fiveDistinctToday 45 "2026-10-11" "2026-10-10" rfl (by decide)

/-- Claim C2, checked against the code: in the `usePrayerData` hook, with
all five prayers already logged today and the streak already advanced
today (`lastPrayerDate` is today), logging a duplicate "Fajr" advances
`currentStreak` from 1 to 2 — the hook never consults `lastPrayerDate`,
so the same-day idempotence the specification states fails on this
implementation (the `PrayerService` implementation does guard it, see
`service_same_day_idempotent_aux`). -/
theorem hook_double_advances_same_day :
    (hookUpdateStreak
        { currentStreak := 1, longestStreak := 1,
          lastPrayerDate := "Sat Oct 10 2026" }
        (fiveHookLogs "Sat Oct 10 2026") "Fajr" "Sat Oct 10 2026").currentStreak = 2 := by
  decide

/-- The `PrayerService` implementation, by contrast, leaves the streak
unchanged when `last_prayer_date` already equals today (prayer.ts line
300: already counted today), for any state and any logs. -/
theorem service_same_day_idempotent_aux
    (streak : PrayerStreak) (todaysPrayers : List Prayer)
    (totalPrayers : ℕ) (today yesterday : String)
    (hlast : streak.last_prayer_date = some today)
    (hne : today ≠ yesterday) :
    (updateStreak streak todaysPrayers totalPrayers today yesterday).current_streak
      = streak.current_streak := by
  unfold updateStreak
  by_cases hfive : (jsSetOfList (todaysPrayers.map (·.prayer_name))).length = 5
  · simp [hlast, hfive, hne]
  · simp [hfive]

/-- Claim C3, checked against the code: in the `usePrayerData` hook, with
`lastPrayerDate` two days before today and a streak of 3, completing all
five prayers today yields `currentStreak = 4`, not the reset to 1 the
specification requires — the hook has no gap detection at all. -/
theorem hook_never_resets_after_gap :
    (hookUpdateStreak
        { currentStreak := 3, longestStreak := 6,
          lastPrayerDate := "Thu Oct 08 2026" }
        (fiveHookLogs "Sat Oct 10 2026").tail "Fajr" "Sat Oct 10 2026").currentStreak = 4 ∧
    (hookUpdateStreak
        { currentStreak := 3, longestStreak := 6,
          lastPrayerDate := "Thu Oct 08 2026" }
        (fiveHookLogs "Sat Oct 10 2026").tail "Fajr" "Sat Oct 10 2026").currentStreak ≠ 1 := by
  constructor
  · decide
  · decide

/-- The `PrayerService` implementation does reset: when the stored
`last_prayer_date` differs from both yesterday and today (any gap of two
or more calendar days) and today's five distinct prayers are logged,
`current_streak` becomes exactly 1. -/
theorem service_streak_reset
    (streak : PrayerStreak) (todaysPrayers : List Prayer)
    (totalPrayers : ℕ) (today yesterday lastDate : String)
    (hlast : streak.last_prayer_date = some lastDate)
    (hny : lastDate ≠ yesterday) (hnt : lastDate ≠ today)
    (hfive : (jsSetOfList (todaysPrayers.map (·.prayer_name))).length = 5) :
    (updateStreak streak todaysPrayers totalPrayers today yesterday).current_streak = 1 := by
  unfold updateStreak
  simp [hlast, hfive, hny, hnt]

/-- Witness for `service_streak_reset`: last prayer three days ago,
streak 3, five distinct prayers today. -/
theorem service_streak_reset_witness :
    (updateStreak
        { current_streak := 3, longest_streak := 6,
          last_prayer_date := some "2026-10-07", total_prayers := 80 }
        fiveDistinctToday 85 "2026-10-10" "2026-10-09").current_streak = 1 :=
  service_streak_reset
    { current_streak := 3, longest_streak := 6,
      last_prayer_date := some "2026-10-07", total_prayers := 80 }
    fiveDistinctToday 85 "2026-10-10" "2026-10-09" "2026-10-07"
    rfl (by decide) (by decide) (by decide)

/-- One service-side update preserves `longest_streak ≥ current_streak`. -/
theorem updateStreak_preserves_invariant
    (s : PrayerStreak) (todaysPrayers : List Prayer) (totalPrayers : ℕ)
    (today yesterday : String)
    (h : s.current_streak ≤ s.longest_streak) :
    (updateStreak s todaysPrayers totalPrayers today yesterday).current_streak
      ≤ (updateStreak s todaysPrayers totalPrayers today yesterday).longest_streak := by
  unfold updateStreak
  by_cases hfive : (jsSetOfList (todaysPrayers.map (·.prayer_name))).length = 5
  · simp only [hfive, if_true]
    exact le_max_right _ _
  · simpa [hfive] using h

/-- One hook-side update preserves `longestStreak ≥ currentStreak`. -/
theorem hookUpdateStreak_preserves_invariant
    (s : HookStreak) (prayerLogs : List PrayerLog) (prayerName today : String)
    (h : s.currentStreak ≤ s.longestStreak) :
    (hookUpdateStreak s prayerLogs prayerName today).currentStreak
      ≤ (hookUpdateStreak s prayerLogs prayerName today).longestStreak := by
  unfold hookUpdateStreak
  by_cases hfive :
      (jsSetInsert
        (jsSetOfList ((prayerLogs.filter (fun log => log.loggedAtDate = today)).map
          (·.prayerName))) prayerName).length = 5
  · simp only [hfive, if_true]
    exact le_max_right _ _
  · simpa [hfive] using h

/-- Claim C6: streak-record invariant.  Starting from the lazily created
initial record (both streak fields zero), every reachable streak state —
in the `PrayerService` implementation and in the `usePrayerData` hook
alike — satisfies `longestStreak ≥ currentStreak`. -/
theorem streak_invariant_reachable :
    (∀ s : PrayerStreak, ReachableStreak s →
        s.current_streak ≤ s.longest_streak) ∧
    (∀ s : HookStreak, ReachableHookStreak s →
        s.currentStreak ≤ s.longestStreak) := by
  constructor
  · intro s hs
    induction hs with
    | init => exact Nat.le_refl 0
    | step s todaysPrayers totalPrayers today yesterday _ ih =>
        exact updateStreak_preserves_invariant s todaysPrayers totalPrayers today yesterday ih
  · intro s hs
    induction hs with
    | init => exact Nat.le_refl 0
    | step s prayerLogs prayerName today _ ih =>
        exact hookUpdateStreak_preserves_invariant s prayerLogs prayerName today ih

/-- Witness for C6: the invariant holds at the concrete state reached by
one completed day after the initial record, in both implementations. -/
theorem streak_invariant_reachable_witness :
    (updateStreak initialStreak fiveDistinctToday 5 "2026-10-11" "2026-10-10").current_streak
      ≤ (updateStreak initialStreak fiveDistinctToday 5 "2026-10-11" "2026-10-10").longest_streak ∧
    (hookUpdateStreak initialHookStreak (fiveHookLogs "Sat Oct 10 2026")
        "Fajr" "Sat Oct 10 2026").currentStreak
      ≤ (hookUpdateStreak initialHookStreak (fiveHookLogs "Sat Oct 10 2026")
        "Fajr" "Sat Oct 10 2026").longestStreak :=
  ⟨streak_invariant_reachable.1 _
      (ReachableStreak.step initialStreak fiveDistinctToday 5 "2026-10-11" "2026-10-10"
        ReachableStreak.init),
   streak_invariant_reachable.2 _
      (ReachableHookStreak.step initialHookStreak (fiveHookLogs "Sat Oct 10 2026")
        "Fajr" "Sat Oct 10 2026" ReachableHookStreak.init)⟩

/-- Claim C4: due-check exactness.  A reminder is selected by
`checkForDueReminders` if and only if it is in the list, it is enabled,
the current day-of-week is among its `days_of_week`, and its `HH:MM`
time equals the current time truncated to the minute — so a reminder
set for `05:30` fires at exactly `05:30` and at no other minute. -/
theorem due_check_exactness
    (reminders : List PrayerReminder) (currentTime : String) (currentDay : ℕ)
    (r : PrayerReminder) :
    r ∈ checkForDueReminders reminders currentTime currentDay ↔
      r ∈ reminders ∧ sqliteBoolNum r.is_enabled ≠ 0 ∧
        currentDay ∈ daysOfWeekList r ∧ r.reminder_time = currentTime := by
  unfold checkForDueReminders
  rw [List.mem_filter]
  constructor
  · rintro ⟨hmem, hb⟩
    by_cases h1 : sqliteBoolNum r.is_enabled = 0
    · simp [h1] at hb
    · by_cases h2 : currentDay ∈ daysOfWeekList r
      · simp only [h1, if_false, h2, not_true_eq_false, if_neg, decide_eq_true_eq] at hb
        · exact ⟨hmem, h1, h2, hb⟩
      · simp [h1, h2] at hb
  · rintro ⟨hmem, h1, h2, h3⟩
    refine ⟨hmem, ?_⟩
    simp [h1, h2, h3]

theorem dispatchInv_start (s : List String) : DispatchInv s (s, []) :=
  ⟨List.nodup_nil, by simp, fun _ hk => hk, fun k hk => Or.inl hk⟩

theorem dispatchInv_checkStep (s : List String) (t : String)
    (acc : List String × List String) (r : HookReminder)
    (h : DispatchInv s acc) : DispatchInv s (checkStep t acc r) := by
  obtain ⟨hnd, hdisp, hsub, hset⟩ := h
  unfold checkStep
  by_cases hen : r.isEnabled
  · simp only [hen, Bool.not_true, Bool.false_eq_true, if_false]
    by_cases hc : r.reminderTime = t ∧ reminderKey r t ∉ acc.1
    · simp only [hc, if_true]
      have hknotin2 : reminderKey r t ∉ acc.2 := fun hk => hc.2 (hdisp _ hk).2
      have hknotins : reminderKey r t ∉ s := fun hk => hc.2 (hsub _ hk)
      refine ⟨?_, ?_, ?_, ?_⟩
      · simpa [List.nodup_append] using ⟨hnd, hknotin2⟩
      · intro k hk
        rcases List.mem_append.mp hk with hk | hk
        · exact ⟨(hdisp _ hk).1, List.mem_append.mpr (Or.inl (hdisp _ hk).2)⟩
        · rcases List.mem_singleton.mp hk with rfl
          exact ⟨hknotins, List.mem_append.mpr (Or.inr (List.mem_singleton.mpr rfl))⟩
      · intro k hk
        exact List.mem_append.mpr (Or.inl (hsub _ hk))
      · intro k hk
        rcases List.mem_append.mp hk with hk | hk
        · rcases hset _ hk with hk | hk
          · exact Or.inl hk
          · exact Or.inr (List.mem_append.mpr (Or.inl hk))
        · exact Or.inr (List.mem_append.mpr (Or.inr hk))
    · simpa [hc] using ⟨hnd, hdisp, hsub, hset⟩
  · simp only [Bool.not_eq_true] at hen
    simpa [hen] using ⟨hnd, hdisp, hsub, hset⟩

theorem dispatchInv_foldl (s : List String) (t : String)
    (rs : List HookReminder) (acc : List String × List String)
    (h : DispatchInv s acc) :
    DispatchInv s (rs.foldl (checkStep t) acc) := by
  induction rs generalizing acc with
  | nil => exact h
  | cons r rest ih => exact ih _ (dispatchInv_checkStep s t acc r h)

/-- A single `checkReminders` call satisfies the dispatch invariant
relative to the set it started from. -/
theorem dispatchInv_checkReminders (rs : List HookReminder) (t : String)
    (notified : List String) :
    DispatchInv notified (checkReminders rs t notified) :=
  dispatchInv_foldl notified t rs (notified, []) (dispatchInv_start notified)

/-- A whole run of due-checks satisfies the dispatch invariant relative
to the set it started from. -/
theorem dispatchInv_runChecks (calls : List (List HookReminder × String))
    (s : List String) (acc : List String × List String)
    (h : DispatchInv s acc) :
    DispatchInv s (calls.foldl runStep acc) := by
  induction calls generalizing acc with
  | nil => exact h
  | cons call rest ih =>
      refine ih _ ?_
      show DispatchInv s ((checkReminders call.1 call.2 acc.1).1,
        acc.2 ++ (checkReminders call.1 call.2 acc.1).2)
      obtain ⟨hnd, hdisp, hsub, hset⟩ := h
      obtain ⟨hnd', hdisp', hsub', hset'⟩ := dispatchInv_checkReminders call.1 call.2 acc.1
      refine ⟨?_, ?_, ?_, ?_⟩
      · refine List.Nodup.append hnd hnd' ?_
        intro k hk hk'
        exact (hdisp' _ hk').1 ((hdisp _ hk).2)
      · intro k hk
        rcases List.mem_append.mp hk with hk | hk
        · exact ⟨(hdisp _ hk).1, hsub' _ (hdisp _ hk).2⟩
        · refine ⟨fun hks => (hdisp' _ hk).1 (hsub _ hks), (hdisp' _ hk).2⟩
      · intro k hk
        exact hsub' _ (hsub _ hk)
      · intro k hk
        rcases hset' _ hk with hk | hk
        · rcases hset _ hk with hk | hk
          · exact Or.inl hk
          · exact Or.inr (List.mem_append.mpr (Or.inl hk))
        · exact Or.inr (List.mem_append.mpr (Or.inr hk))

theorem checkStep_set_mono (t : String) (acc : List String × List String)
    (r : HookReminder) (k : String) (h : k ∈ acc.1) :
    k ∈ (checkStep t acc r).1 := by
  unfold checkStep
  by_cases hen : r.isEnabled
  · by_cases hc : r.reminderTime = t ∧ reminderKey r t ∉ acc.1
    · simp only [hen, Bool.not_true, Bool.false_eq_true, if_false, hc, if_true]
      exact List.mem_append.mpr (Or.inl h)
    · simpa [hen, hc] using h
  · simp only [Bool.not_eq_true] at hen
    simpa [hen] using h

theorem checkFold_set_mono (t : String) (rs : List HookReminder)
    (acc : List String × List String) (k : String) (h : k ∈ acc.1) :
    k ∈ (rs.foldl (checkStep t) acc).1 := by
  induction rs generalizing acc with
  | nil => exact h
  | cons r rest ih => exact ih _ (checkStep_set_mono t acc r k h)

/-- After a check over a list containing an enabled reminder whose time
matches the current minute, that reminder's dedup key is in the
`notifiedToday` set. -/
theorem key_marked_after_check (t : String) (rs : List HookReminder)
    (acc : List String × List String) (r : HookReminder)
    (hmem : r ∈ rs) (hen : r.isEnabled = true) (ht : r.reminderTime = t) :
    reminderKey r t ∈ (rs.foldl (checkStep t) acc).1 := by
  induction rs generalizing acc with
  | nil => cases hmem
  | cons x rest ih =>
      rcases List.mem_cons.mp hmem with rfl | hmem
      · refine checkFold_set_mono t rest _ _ ?_
        unfold checkStep
        by_cases hc : r.reminderTime = t ∧ reminderKey r t ∉ acc.1
        · simp only [hen, Bool.not_true, Bool.false_eq_true, if_false, hc, if_true]
          exact List.mem_append.mpr (Or.inr (List.mem_singleton.mpr rfl))
        · have hin : reminderKey r t ∈ acc.1 := by
            by_contra hnot
            exact hc ⟨ht, hnot⟩
          simpa [hen, hc] using hin
      · exact ih _ hmem

/-- Claim C5: notification deduplication.  For any sequence of
due-checks starting from the cleared `notifiedToday` set (the set is
cleared at local midnight, so this is one calendar day), every dedup
key `prayerName_HH:MM` is dispatched at most once; and two consecutive
due-checks in the same minute over the same reminder list dispatch
exactly one notification for a due reminder. -/
theorem notification_dedup :
    (∀ (calls : List (List HookReminder × String)) (k : String),
        ((runChecks calls []).2).count k ≤ 1) ∧
    (∀ (rs : List HookReminder) (t : String) (r : HookReminder),
        r ∈ rs → r.isEnabled = true → r.reminderTime = t →
        ((runChecks [(rs, t), (rs, t)] []).2).count (reminderKey r t) = 1) := by
  constructor
  · intro calls k
    have hinv : DispatchInv [] (calls.foldl runStep ([], [])) :=
      dispatchInv_runChecks calls [] ([], []) (dispatchInv_start [])
    exact List.nodup_iff_count_le_one.mp hinv.1 k
  · intro rs t r hmem hen ht
    have hinv : DispatchInv [] (runChecks [(rs, t), (rs, t)] []) :=
      dispatchInv_runChecks [(rs, t), (rs, t)] [] ([], []) (dispatchInv_start [])
    have hle : ((runChecks [(rs, t), (rs, t)] []).2).count (reminderKey r t) ≤ 1 :=
      List.nodup_iff_count_le_one.mp hinv.1 _
    have hinv1 : DispatchInv [] (checkReminders rs t []) :=
      dispatchInv_checkReminders rs t []
    have hkey1 : reminderKey r t ∈ (checkReminders rs t []).1 :=
      key_marked_after_check t rs ([], []) r hmem hen ht
    have hkeyd1 : reminderKey r t ∈ (checkReminders rs t []).2 := by
      rcases hinv1.2.2.2 _ hkey1 with h | h
      · cases h
      · exact h
    have hmem2 : reminderKey r t ∈ (runChecks [(rs, t), (rs, t)] []).2 := by
      show reminderKey r t ∈ (runStep (runStep ([], []) (rs, t)) (rs, t)).2
      unfold runStep
      refine List.mem_append.mpr (Or.inl (List.mem_append.mpr (Or.inr ?_)))
      exact hkeyd1
    have hge : 1 ≤ ((runChecks [(rs, t), (rs, t)] []).2).count (reminderKey r t) :=
      List.count_pos_iff.mpr hmem2
    exact Nat.le_antisymm hle hge

/-- Witness for C5 at a concrete input: one enabled Fajr reminder due at
`05:30`, two back-to-back checks in that minute, exactly one dispatch. -/
theorem notification_dedup_witness :
    ((runChecks
        [([{ prayerName := "Fajr", reminderTime := "05:30", isEnabled := true }], "05:30"),
         ([{ prayerName := "Fajr", reminderTime := "05:30", isEnabled := true }], "05:30")]
        []).2).count
      (reminderKey { prayerName := "Fajr", reminderTime := "05:30", isEnabled := true } "05:30")
      = 1 :=
  notification_dedup.2
    [{ prayerName := "Fajr", reminderTime := "05:30", isEnabled := true }] "05:30"
    { prayerName := "Fajr", reminderTime := "05:30", isEnabled := true }
    (List.mem_singleton.mpr rfl) rfl rfl

/-- Claim C9: stats error containment.  Whenever an error is thrown
during stats computation, `getPrayerStats` swallows it and returns the
default stats object: all numeric fields 0 and a 7-entry
weekly structure with `completed = 0` and `total = 5` on every day. -/
theorem stats_error_containment
    (loaded : Except String (List Prayer × PrayerStreak))
    (daysInWeek : List WeekDay) (msg : String)
    (herr : loaded = Except.error msg)
    (hweek : daysInWeek.length = 7) :
    (getPrayerStats loaded daysInWeek).totalPrayers = 0 ∧
    (getPrayerStats loaded daysInWeek).currentStreak = 0 ∧
    (getPrayerStats loaded daysInWeek).longestStreak = 0 ∧
    (getPrayerStats loaded daysInWeek).averageDuration = 0 ∧
    (getPrayerStats loaded daysInWeek).completionRate = 0 ∧
    (getPrayerStats loaded daysInWeek).weeklyStats.length = 7 ∧
    ∀ w ∈ (getPrayerStats loaded daysInWeek).weeklyStats,
      w.completed = 0 ∧ w.total = 5 := by
  subst herr
  refine ⟨rfl, rfl, rfl, rfl, rfl, ?_, ?_⟩
  · simpa [getPrayerStats, defaultPrayerStats, defaultWeeklyStats] using hweek
  · intro w hw
    simp only [getPrayerStats, defaultPrayerStats, defaultWeeklyStats,
      List.mem_map] at hw
    obtain ⟨day, _, rfl⟩ := hw
    exact ⟨rfl, rfl⟩

/-- Witness for C9: a concrete throw with the concrete week. -/
theorem stats_error_containment_witness :
    (getPrayerStats (Except.error "db down") sampleWeek).totalPrayers = 0 ∧
    (getPrayerStats (Except.error "db down") sampleWeek).currentStreak = 0 ∧
    (getPrayerStats (Except.error "db down") sampleWeek).longestStreak = 0 ∧
    (getPrayerStats (Except.error "db down") sampleWeek).averageDuration = 0 ∧
    (getPrayerStats (Except.error "db down") sampleWeek).completionRate = 0 ∧
    (getPrayerStats (Except.error "db down") sampleWeek).weeklyStats.length = 7 ∧
    ∀ w ∈ (getPrayerStats (Except.error "db down") sampleWeek).weeklyStats,
      w.completed = 0 ∧ w.total = 5 :=
  stats_error_containment (Except.error "db down") sampleWeek "db down" rfl (by decide)

theorem length_filter_map_eq {α β : Type} (f : α → β) (p : β → Bool) (l : List α) :
    ((l.map f).filter p).length = (l.filter (fun a => p (f a))).length := by
  induction l with
  | nil => rfl
  | cons a t ih =>
      simp only [List.map_cons, List.filter_cons]
      cases h : p (f a) <;> simp [h, ih]

theorem completionRateOf_eq (prayers : List Prayer) (daysInWeek : List WeekDay) :
    completionRateOf prayers daysInWeek
      = jsRound ((daysWithAllFive prayers daysInWeek : ℚ) / 7 * 100) := by
  unfold completionRateOf daysWithAllFive weeklyStatsOf
  rw [length_filter_map_eq]

/-- Claim C7, amended: completion-rate arithmetic.  The 30-day
completion rate equals the number of days in the current week on which
all 5 distinct prayers were logged, divided by 7, times 100, rounded to
the nearest integer (`Math.round`) — the numerator is counted over the
7-day week even though the logs come from the 30-day window. -/
theorem completion_rate_mixed_window (prayers : List Prayer) (daysInWeek : List WeekDay) :
    completionRateOf prayers daysInWeek
      = jsRound ((daysWithAllFive prayers daysInWeek : ℚ) / 7 * 100) :=
  completionRateOf_eq prayers daysInWeek

/-- Counterexample to C7 as stated (without rounding): with exactly one
fully completed day in the week, the code returns 14, but
`1 / 7 * 100 = 100/7` is not an integer, so the returned rate does not
equal the unrounded quotient. -/
theorem completion_rate_unrounded_counterexample :
    ((completionRateOf fiveDistinctToday sampleWeek : ℤ) : ℚ)
      ≠ (daysWithAllFive fiveDistinctToday sampleWeek : ℚ) / 7 * 100 := by
  have h1 : daysWithAllFive fiveDistinctToday sampleWeek = 1 := by decide
  have h2 : completionRateOf fiveDistinctToday sampleWeek = 14 := by
    rw [completionRateOf_eq, h1]
    unfold jsRound
    rw [Int.floor_eq_iff]
    constructor <;> norm_num
  rw [h1, h2]
  norm_num

theorem foldl_add_map {α : Type} (f : α → ℚ) (l : List α) (q : ℚ) :
    l.foldl (fun sum a => sum + f a) q = q + (l.map f).sum := by
  induction l generalizing q with
  | nil => simp
  | cons a t ih => simp [ih, add_assoc]

theorem jsRound_zero : jsRound 0 = 0 := by
  unfold jsRound
  rw [Int.floor_eq_iff]
  constructor <;> norm_num

theorem prayersWithDuration_eq (prayers : List Prayer) :
    prayersWithDuration prayers
      = prayers.filter fun p =>
          decide (p.duration_minutes ≠ none ∧ p.duration_minutes ≠ some 0) := by
  unfold prayersWithDuration
  refine List.filter_congr ?_
  intro p _
  cases h : p.duration_minutes with
  | none => simp [h]
  | some d => simp [h]

/-- Claim C10: guarded average duration.  `getPrayerStats` computes
`averageDuration` as the mean of `duration_minutes` over exactly the
logs whose field is present and nonzero, rounded to the nearest
integer, and returns 0 when no such log exists — the division only
happens with a positive divisor. -/
theorem average_duration_guarded (prayers : List Prayer) :
    averageDurationOf prayers = averageDurationSpec prayers ∧
    (prayersWithDuration prayers = [] → averageDurationOf prayers = 0) := by
  have hfil := prayersWithDuration_eq prayers
  constructor
  · unfold averageDurationOf rawAverageDuration averageDurationSpec
    rw [← hfil]
    by_cases h : (prayersWithDuration prayers).length = 0
    · simp [h, jsRound_zero]
    · have hpos : (prayersWithDuration prayers).length > 0 := Nat.pos_of_ne_zero h
      simp only [hpos, if_true, h, if_false]
      rw [foldl_add_map, zero_add]
  · intro hempty
    unfold averageDurationOf rawAverageDuration
    simp [hempty, jsRound_zero]

/-- Witness for C10 at a concrete input: one log without a duration and
one with duration 0, so no qualifying log exists and the result is 0. -/
theorem average_duration_guarded_witness :
    averageDurationOf
        [{ prayer_name := "Fajr", logged_at := 100, duration_minutes := none },
         { prayer_name := "Dhuhr", logged_at := 200, duration_minutes := some 0 }]
      = averageDurationSpec
        [{ prayer_name := "Fajr", logged_at := 100, duration_minutes := none },
         { prayer_name := "Dhuhr", logged_at := 200, duration_minutes := some 0 }] ∧
    (prayersWithDuration
        [{ prayer_name := "Fajr", logged_at := 100, duration_minutes := none },
         { prayer_name := "Dhuhr", logged_at := 200, duration_minutes := some 0 }] = [] →
      averageDurationOf
        [{ prayer_name := "Fajr", logged_at := 100, duration_minutes := none },
         { prayer_name := "Dhuhr", logged_at := 200, duration_minutes := some 0 }] = 0) :=
  average_duration_guarded
    [{ prayer_name := "Fajr", logged_at := 100, duration_minutes := none },
     { prayer_name := "Dhuhr", logged_at := 200, duration_minutes := some 0 }]

theorem pickEntry_snd (a b : String × ℕ) : (pickEntry a b).2 = max a.2 b.2 := by
  unfold pickEntry
  split_ifs with h <;> omega

theorem foldl_pickEntry_spec (es : List (String × ℕ)) (e : String × ℕ) :
    (es.foldl pickEntry e).2 = max e.2 (maxCount es) ∧
    some (es.foldl pickEntry e)
      = ((e :: es).filter fun x => decide (x.2 = max e.2 (maxCount es))).getLast? ∧
    es.foldl pickEntry e ∈ e :: es := by
  induction es generalizing e with
  | nil =>
      refine ⟨by simp [maxCount], ?_, List.mem_singleton.mpr rfl⟩
      simp [maxCount, List.filter_cons]
  | cons b rest ih =>
      obtain ⟨ih1, ih2, ih3⟩ := ih (pickEntry e b)
      have hsnd : (pickEntry e b).2 = max e.2 b.2 := pickEntry_snd e b
      have hM : max (pickEntry e b).2 (maxCount rest) = max e.2 (maxCount (b :: rest)) := by
        rw [hsnd]
        show max (max e.2 b.2) (maxCount rest) = max e.2 (max b.2 (maxCount rest))
        omega
      refine ⟨?_, ?_, ?_⟩
      · show (rest.foldl pickEntry (pickEntry e b)).2 = max e.2 (maxCount (b :: rest))
        rw [ih1, hM]
      · show some (rest.foldl pickEntry (pickEntry e b))
          = ((e :: b :: rest).filter fun x =>
              decide (x.2 = max e.2 (maxCount (b :: rest)))).getLast?
        rw [ih2, hM]
        have hMb : maxCount (b :: rest) = max b.2 (maxCount rest) := rfl
        by_cases hgt : e.2 > b.2
        · have hge : pickEntry e b = e := by
            unfold pickEntry
            simp [hgt]
          have hb : ¬ (b.2 = max e.2 (maxCount (b :: rest))) := by
            rw [hMb]
            omega
          rw [hge]
          have hfil : (e :: b :: rest).filter
              (fun x => decide (x.2 = max e.2 (maxCount (b :: rest))))
            = (e :: rest).filter
              (fun x => decide (x.2 = max e.2 (maxCount (b :: rest)))) := by
            simp only [List.filter_cons, decide_eq_false hb, Bool.false_eq_true,
              if_false]
          rw [hfil]
        · have hge : pickEntry e b = b := by
            unfold pickEntry
            simp [hgt]
          rw [hge]
          by_cases he : e.2 = max e.2 (maxCount (b :: rest))
          · have hble : b.2 ≤ max e.2 (maxCount (b :: rest)) := by
              rw [hMb]
              omega
            have hbe : b.2 = max e.2 (maxCount (b :: rest)) := by omega
            have h2 : (b :: rest).filter
                (fun x => decide (x.2 = max e.2 (maxCount (b :: rest))))
              = b :: rest.filter
                (fun x => decide (x.2 = max e.2 (maxCount (b :: rest)))) :=
              List.filter_cons_of_pos (by simpa using hbe)
            have h1 : (e :: b :: rest).filter
                (fun x => decide (x.2 = max e.2 (maxCount (b :: rest))))
              = e :: (b :: rest).filter
                (fun x => decide (x.2 = max e.2 (maxCount (b :: rest)))) :=
              List.filter_cons_of_pos (by simpa using he)
            rw [h1, h2, List.getLast?_cons_cons]
          · have h1 : (e :: b :: rest).filter
                (fun x => decide (x.2 = max e.2 (maxCount (b :: rest))))
              = (b :: rest).filter
                (fun x => decide (x.2 = max e.2 (maxCount (b :: rest)))) :=
              List.filter_cons_of_neg (by simpa using he)
            rw [h1]
      · show rest.foldl pickEntry (pickEntry e b) ∈ e :: b :: rest
        rcases List.mem_cons.mp ih3 with h | h
        · have : pickEntry e b = e ∨ pickEntry e b = b := by
            unfold pickEntry
            split_ifs <;> simp
          rcases this with hh | hh
          · rw [h, hh]; exact List.mem_cons_self _ _
          · rw [h, hh]; exact List.mem_cons.mpr (Or.inr (List.mem_cons_self _ _))
        · exact List.mem_cons.mpr (Or.inr (List.mem_cons.mpr (Or.inr h)))

theorem bumpCount_ne_nil (acc : List (String × ℕ)) (n : String) :
    bumpCount acc n ≠ [] := by
  cases acc with
  | nil => simp [bumpCount]
  | cons e rest =>
      obtain ⟨k, v⟩ := e
      unfold bumpCount
      split_ifs <;> simp

theorem foldl_bump_ne_nil (logs : List PrayerLog) (acc : List (String × ℕ))
    (h : acc ≠ []) :
    logs.foldl (fun a log => bumpCount a log.prayerName) acc ≠ [] := by
  induction logs generalizing acc with
  | nil => exact h
  | cons l ls ih => exact ih _ (bumpCount_ne_nil acc l.prayerName)

theorem prayerCounts_ne_nil (logs : List PrayerLog) (h : logs ≠ []) :
    prayerCounts logs ≠ [] := by
  cases logs with
  | nil => exact absurd rfl h
  | cons l ls =>
      show ls.foldl (fun a log => bumpCount a log.prayerName)
        (bumpCount [] l.prayerName) ≠ []
      exact foldl_bump_ne_nil ls _ (bumpCount_ne_nil [] l.prayerName)

theorem lookupCount_nil (name : String) : lookupCount [] name = 0 := rfl

theorem lookupCount_cons (e : String × ℕ) (rest : List (String × ℕ)) (name : String) :
    lookupCount (e :: rest) name
      = if e.1 = name then e.2 else lookupCount rest name := rfl

theorem lookupCount_bump (acc : List (String × ℕ)) (n name : String) :
    lookupCount (bumpCount acc n) name
      = lookupCount acc name + (if name = n then 1 else 0) := by
  induction acc with
  | nil =>
      have hb : bumpCount [] n = [(n, 1)] := rfl
      rw [hb, lookupCount_cons, lookupCount_nil]
      by_cases h : n = name
      · rw [if_pos h, if_pos h.symm]
      · rw [if_neg h, if_neg (fun hh : name = n => h hh.symm)]
  | cons e rest ih =>
      obtain ⟨k, v⟩ := e
      by_cases hk : k = n
      · have hb : bumpCount ((k, v) :: rest) n = (k, v + 1) :: rest := by
          unfold bumpCount
          rw [if_pos hk]
        rw [hb, lookupCount_cons, lookupCount_cons]
        by_cases hn : k = name
        · rw [if_pos hn, if_pos hn, if_pos (hn.symm.trans hk)]
        · rw [if_neg hn, if_neg hn, if_neg (fun hh : name = n => hn (hk.trans hh.symm))]
          omega
      · have hb : bumpCount ((k, v) :: rest) n = (k, v) :: bumpCount rest n := by
          simp only [bumpCount]
          rw [if_neg hk]
        rw [hb, lookupCount_cons, lookupCount_cons]
        by_cases hn : k = name
        · rw [if_pos hn, if_pos hn, if_neg (fun hh : name = n => hk (hn.trans hh))]
          omega
        · rw [if_neg hn, if_neg hn, ih]

theorem occurrences_cons (l : PrayerLog) (ls : List PrayerLog) (name : String) :
    occurrences (l :: ls) name
      = occurrences ls name + (if l.prayerName = name then 1 else 0) := by
  unfold occurrences
  rw [List.filter_cons]
  by_cases h : l.prayerName = name
  · simp [h]
  · simp [h]

theorem lookupCount_foldl_bump (logs : List PrayerLog)
    (acc : List (String × ℕ)) (name : String) :
    lookupCount (logs.foldl (fun a log => bumpCount a log.prayerName) acc) name
      = lookupCount acc name + occurrences logs name := by
  induction logs generalizing acc with
  | nil => simp [occurrences]
  | cons l ls ih =>
      show lookupCount (ls.foldl (fun a log => bumpCount a log.prayerName)
        (bumpCount acc l.prayerName)) name = _
      rw [ih, lookupCount_bump, occurrences_cons]
      by_cases h : l.prayerName = name
      · rw [if_pos h, if_pos h.symm]
        omega
      · rw [if_neg h, if_neg (fun hh : name = l.prayerName => h hh.symm)]
        omega

theorem occurrences_eq_lookupCount (logs : List PrayerLog) (name : String) :
    occurrences logs name = lookupCount (prayerCounts logs) name := by
  have h := lookupCount_foldl_bump logs [] name
  unfold prayerCounts
  rw [h]
  simp [lookupCount]

theorem bumpCount_keys (acc : List (String × ℕ)) (n : String) :
    (bumpCount acc n).map Prod.fst
      = if n ∈ acc.map Prod.fst then acc.map Prod.fst
        else acc.map Prod.fst ++ [n] := by
  induction acc with
  | nil => simp [bumpCount]
  | cons e rest ih =>
      obtain ⟨k, v⟩ := e
      unfold bumpCount
      by_cases hk : k = n
      · subst hk
        simp
      · simp only [hk, if_false, List.map_cons, ih]
        have hne : ¬ (n = k) := fun hh => hk hh.symm
        by_cases hm : n ∈ rest.map Prod.fst
        · simp [hm, hne]
        · simp [hm, hne]

theorem nodup_keys_foldl_bump (logs : List PrayerLog) (acc : List (String × ℕ))
    (h : (acc.map Prod.fst).Nodup) :
    ((logs.foldl (fun a log => bumpCount a log.prayerName) acc).map Prod.fst).Nodup := by
  induction logs generalizing acc with
  | nil => exact h
  | cons l ls ih =>
      refine ih _ ?_
      rw [bumpCount_keys]
      by_cases hm : l.prayerName ∈ acc.map Prod.fst
      · simpa [hm] using h
      · simp only [hm, if_false]
        refine List.Nodup.append h (List.nodup_singleton _) ?_
        intro a ha hb
        rw [List.mem_singleton] at hb
        exact hm (hb ▸ ha)

theorem nodup_keys_prayerCounts (logs : List PrayerLog) :
    ((prayerCounts logs).map Prod.fst).Nodup :=
  nodup_keys_foldl_bump logs [] List.nodup_nil

theorem lookupCount_of_mem_nodup (entries : List (String × ℕ)) (x : String × ℕ)
    (hnd : (entries.map Prod.fst).Nodup) (hmem : x ∈ entries) :
    lookupCount entries x.1 = x.2 := by
  induction entries with
  | nil => cases hmem
  | cons e rest ih =>
      rcases List.mem_cons.mp hmem with rfl | hmem
      · simp [lookupCount]
      · have hx1 : x.1 ∈ rest.map Prod.fst := List.mem_map_of_mem Prod.fst hmem
        rw [List.map_cons] at hnd
        obtain ⟨hnotin, hnd2⟩ := List.nodup_cons.mp hnd
        have hne : ¬ (e.1 = x.1) := fun hh => hnotin (hh ▸ hx1)
        unfold lookupCount
        simp only [hne, if_false]
        exact ih hnd2 hmem

theorem lookupCount_le_maxCount (entries : List (String × ℕ)) (name : String) :
    lookupCount entries name ≤ maxCount entries := by
  induction entries with
  | nil => exact Nat.le_refl 0
  | cons e rest ih =>
      unfold lookupCount maxCount
      by_cases h : e.1 = name
      · simp only [h, if_true]
        omega
      · simp only [h, if_false]
        omega

/-- Claim C8, amended: most-prayed tie-breaking.  `mostPrayedTime` is a
prayer name with the highest occurrence count among the monthly logs,
but ties between entries with the highest count are broken towards the
last-encountered entry (in first-occurrence order of the names), not
the first-encountered one: the `reduce` keeps the accumulator only on a
strictly greater count. -/
theorem most_prayed_time_last_encountered (logs : List PrayerLog)
    (h : logs ≠ []) :
    some (getMostPrayedTime logs) = lastEncounteredMax (prayerCounts logs) ∧
    occurrences logs (getMostPrayedTime logs) = maxCount (prayerCounts logs) ∧
    ∀ name, occurrences logs name ≤ maxCount (prayerCounts logs) := by
  have hne : prayerCounts logs ≠ [] := prayerCounts_ne_nil logs h
  obtain ⟨e, es, hs⟩ : ∃ e es, prayerCounts logs = e :: es := by
    cases hcc : prayerCounts logs with
    | nil => exact absurd hcc hne
    | cons a l => exact ⟨a, l, rfl⟩
  obtain ⟨h1, h2, h3⟩ := foldl_pickEntry_spec es e
  have hmax : maxCount (prayerCounts logs) = max e.2 (maxCount es) := by
    rw [hs]
    rfl
  have hmost : getMostPrayedTime logs = (es.foldl pickEntry e).1 := by
    unfold getMostPrayedTime
    rw [hs]
  refine ⟨?_, ?_, ?_⟩
  · rw [hmost]
    unfold lastEncounteredMax
    rw [hs]
    have hmax2 : maxCount (e :: es) = max e.2 (maxCount es) := rfl
    rw [hmax2, ← h2]
    rfl
  · rw [hmost, occurrences_eq_lookupCount]
    have hwmem : es.foldl pickEntry e ∈ prayerCounts logs := by
      rw [hs]
      exact h3
    rw [lookupCount_of_mem_nodup (prayerCounts logs) _
      (nodup_keys_prayerCounts logs) hwmem, hmax]
    exact h1
  · intro name
    rw [occurrences_eq_lookupCount]
    exact lookupCount_le_maxCount (prayerCounts logs) name

/-- Counterexample to C8 as stated: with `Fajr` and `Dhuhr` tied at one
occurrence each, the code returns the last-encountered `"Dhuhr"`, not
the first-encountered `"Fajr"` the claim promises. -/
theorem most_prayed_first_encounter_counterexample :
    getMostPrayedTime twoTiedLogs = "Dhuhr" ∧
    firstEncounteredMax (prayerCounts twoTiedLogs) = some "Fajr" ∧
    ¬ (("Dhuhr" : String) = "Fajr") := by
  refine ⟨by decide, by decide, by decide⟩

/-- Witness for the amended C8 at a concrete input: `Fajr` logged twice,
`Dhuhr` once — `Fajr` wins with the (unique) highest count 2. -/
theorem most_prayed_time_last_encountered_witness :
    some (getMostPrayedTime tripleLogs) = lastEncounteredMax (prayerCounts tripleLogs) ∧
    occurrences tripleLogs (getMostPrayedTime tripleLogs)
        = maxCount (prayerCounts tripleLogs) ∧
    ∀ name, occurrences tripleLogs name ≤ maxCount (prayerCounts tripleLogs) :=
  most_prayed_time_last_encountered tripleLogs (by decide)

end PrayerTracker
